import Mathlib

/-!
Verification of the Hootone-RAG ingestion gateway core
(`src/api/main.py`, `src/services/file_handler.py`, `src/services/db_manager.py`).

The Python code is shallowly embedded:
* real-valued quantities of the leaky bucket (`level`, `leak_rate`, monotonic
  timestamps) are modelled as rationals `ℚ`;
* byte strings are `List Nat` (one `Nat` per byte), Python strings are
  `List Char`;
* the filesystem state relevant to one upload (the destination file and its
  metadata sidecar) is an explicit record threaded through the functions;
* exceptions (`HTTPException`, I/O errors) are explicit outcome values;
* fallible I/O writes are driven by an explicit fault-injection parameter so
  that error paths of the Python code are reachable in the model.
-/

namespace Hootone

/-- Model of `HTTPException(status_code=..., detail=...)` raised by the handlers. -/
structure HTTPError where
  status_code : Nat
  detail : String
deriving DecidableEq, Repr

/-- Model of `LeakyBucketConfig` from `src/models/api_models.py` (capacity default 2,
leak_rate default 0.016 requests/second); numeric fields as rationals. -/
structure LeakyBucketConfig where
  capacity : ℚ
  leak_rate : ℚ
deriving DecidableEq, Repr

/-- The default config `LeakyBucketConfig()` used by `src/api/main.py`:
capacity 2, leak_rate 0.016 = 2/125. -/
def defaultBucketCfg : LeakyBucketConfig :=
  { capacity := 2, leak_rate := 2 / 125 }

/-- The shared module-level state `_bucket_level` / `_bucket_updated_at`
of `src/api/main.py`. -/
structure BucketState where
  level : ℚ
  updated_at : ℚ
deriving DecidableEq, Repr

/-- Model of `RateLimitStatus` returned on admission (`src/models/api_models.py`). -/
structure RateLimitStatus where
  allowed : Bool
  status_code : Nat
  bucket_capacity : ℚ
  bucket_leak_rate : ℚ
deriving DecidableEq, Repr

/-- Model of `enforce_rate_limit` from `src/api/main.py` (lines 43-70), the body of the
`async with _bucket_lock:` critical section, as a function of the shared state
and the sampled monotonic clock `now`: recompute the leaked level, stamp
`updated_at := now`, then either reject with HTTP 503 (level not incremented)
or increment the level by 1 and admit. -/
def enforce_rate_limit (cfg : LeakyBucketConfig) (s : BucketState) (now : ℚ) :
    BucketState × Except HTTPError RateLimitStatus :=
  let elapsed := now - s.updated_at
  let leaked := cfg.leak_rate * elapsed
  let level := max 0 (s.level - leaked)
  if level ≥ cfg.capacity then
    ({ level := level, updated_at := now },
     .error { status_code := 503, detail := "Server is Busy" })
  else
    ({ level := level + 1, updated_at := now },
     .ok { allowed := true, status_code := 200,
           bucket_capacity := cfg.capacity, bucket_leak_rate := cfg.leak_rate })

/-- Whether an `enforce_rate_limit` outcome admitted the request. -/
def isAdmitted (r : Except HTTPError RateLimitStatus) : Bool :=
  match r with
  | .ok _ => true
  | .error _ => false

/-- Run a sequence of admission-gate calls at the given clock values,
returning the final state and the per-call admission decisions in order. -/
def runBucket (cfg : LeakyBucketConfig) (s : BucketState) :
    List ℚ → BucketState × List Bool
  | [] => (s, [])
  | t :: ts =>
    let r := enforce_rate_limit cfg s t
    let rest := runBucket cfg r.1 ts
    (rest.1, isAdmitted r.2 :: rest.2)

/-- Final state of a call sequence (decisions discarded). -/
def runBucketState (cfg : LeakyBucketConfig) (s : BucketState) (ts : List ℚ) :
    BucketState :=
  (runBucket cfg s ts).1

theorem runBucket_nil (cfg : LeakyBucketConfig) (s : BucketState) :
    runBucket cfg s [] = (s, []) := rfl

theorem runBucket_cons (cfg : LeakyBucketConfig) (s : BucketState) (t : ℚ)
    (ts : List ℚ) :
    runBucket cfg s (t :: ts) =
      ((runBucket cfg (enforce_rate_limit cfg s t).1 ts).1,
       isAdmitted (enforce_rate_limit cfg s t).2 ::
         (runBucket cfg (enforce_rate_limit cfg s t).1 ts).2) := rfl

/-- C1. Each call to the admission gate, given the current time `now`, first
recomputes the shared state as `level = max(0, level - leak_rate * (now -
updated_at))` and sets `updated_at = now`; then, if `level ≥ capacity`, it
rejects with the distinct busy outcome (HTTP 503, detail "Server is Busy")
without incrementing the level, and otherwise it increments the level by 1 and
admits. -/
theorem admission_gate_step_characterisation
    (cfg : LeakyBucketConfig) (s : BucketState) (now : ℚ) :
    (enforce_rate_limit cfg s now).1.updated_at = now ∧
    (max 0 (s.level - cfg.leak_rate * (now - s.updated_at)) ≥ cfg.capacity →
      enforce_rate_limit cfg s now =
        ({ level := max 0 (s.level - cfg.leak_rate * (now - s.updated_at)),
           updated_at := now },
         .error { status_code := 503, detail := "Server is Busy" })) ∧
    (¬ max 0 (s.level - cfg.leak_rate * (now - s.updated_at)) ≥ cfg.capacity →
      enforce_rate_limit cfg s now =
        ({ level := max 0 (s.level - cfg.leak_rate * (now - s.updated_at)) + 1,
           updated_at := now },
         .ok { allowed := true, status_code := 200,
               bucket_capacity := cfg.capacity,
               bucket_leak_rate := cfg.leak_rate })) := by
  refine ⟨?_, ?_, ?_⟩
  · unfold enforce_rate_limit
    by_cases h : max 0 (s.level - cfg.leak_rate * (now - s.updated_at)) ≥ cfg.capacity
    · simp [h]
    · simp [h]
  · intro h
    unfold enforce_rate_limit
    simp [h]
  · intro h
    unfold enforce_rate_limit
    simp [h]

/-- Witness for C1 at the concrete input: default config, fresh bucket,
clock 0 — the request is admitted and the level becomes 1. -/
theorem admission_gate_step_characterisation_witness :
    enforce_rate_limit defaultBucketCfg { level := 0, updated_at := 0 } 0 =
      ({ level := max 0 ((0 : ℚ) - defaultBucketCfg.leak_rate * (0 - 0)) + 1,
         updated_at := 0 },
       .ok { allowed := true, status_code := 200,
             bucket_capacity := defaultBucketCfg.capacity,
             bucket_leak_rate := defaultBucketCfg.leak_rate }) :=
  (admission_gate_step_characterisation defaultBucketCfg
      { level := 0, updated_at := 0 } 0).2.2 (by norm_num [defaultBucketCfg])

/-- C6 counterexample: with the default config (capacity 2, leak_rate 2/125)
and calls at monotonic times 0, 0, 125/4 from the fresh state, after the third
call the level is 5/2, which exceeds the capacity 2 — so the level does NOT
stay within [0, capacity]. -/
theorem bucket_level_in_capacity_counterexample :
    defaultBucketCfg.capacity <
      (runBucketState defaultBucketCfg { level := 0, updated_at := 0 }
        [0, 0, 125 / 4]).level := by
  norm_num [runBucketState, runBucket, enforce_rate_limit, isAdmitted,
    defaultBucketCfg]

/-- C6 amended: for nonnegative leak rate and capacity, along any sequence of
calls at nondecreasing clock values (the clock is monotonic), the level stays
within [0, capacity + 1): it never becomes negative, and it never reaches
capacity + 1 — but it can exceed `capacity` itself, as the counterexample
shows. Stated for an arbitrary start state satisfying the bounds; the fresh
state (level 0) satisfies them. -/
theorem bucket_level_bounds (cfg : LeakyBucketConfig)
    (hR : 0 ≤ cfg.leak_rate) (s : BucketState) (ts : List ℚ)
    (hchain : List.Chain (· ≤ ·) s.updated_at ts)
    (h0 : 0 ≤ s.level) (h1 : s.level < cfg.capacity + 1) :
    0 ≤ (runBucketState cfg s ts).level ∧
      (runBucketState cfg s ts).level < cfg.capacity + 1 := by
  induction ts generalizing s with
  | nil => exact ⟨h0, h1⟩
  | cons t ts ih =>
    rcases hchain with _ | ⟨hts, hchain⟩
    have hleak : 0 ≤ cfg.leak_rate * (t - s.updated_at) :=
      mul_nonneg hR (by linarith)
    have hlevel0 : 0 ≤ max 0 (s.level - cfg.leak_rate * (t - s.updated_at)) :=
      le_max_left _ _
    have hlevelle : max 0 (s.level - cfg.leak_rate * (t - s.updated_at)) ≤
        s.level := by
      rcases max_cases 0 (s.level - cfg.leak_rate * (t - s.updated_at)) with
        ⟨h, _⟩ | ⟨h, _⟩ <;> rw [h] <;> linarith
    show 0 ≤ (runBucketState cfg s (t :: ts)).level ∧ _
    rw [runBucketState, runBucket]
    by_cases hcap : max 0 (s.level - cfg.leak_rate * (t - s.updated_at)) ≥
        cfg.capacity
    · have hstep : enforce_rate_limit cfg s t =
          ({ level := max 0 (s.level - cfg.leak_rate * (t - s.updated_at)),
             updated_at := t },
           .error { status_code := 503, detail := "Server is Busy" }) :=
        (admission_gate_step_characterisation cfg s t).2.1 hcap
      rw [hstep]
      dsimp only
      exact ih _ hchain (by dsimp only; linarith) (by dsimp only; linarith)
    · have hstep : enforce_rate_limit cfg s t =
          ({ level := max 0 (s.level - cfg.leak_rate * (t - s.updated_at)) + 1,
             updated_at := t },
           .ok { allowed := true, status_code := 200,
                 bucket_capacity := cfg.capacity,
                 bucket_leak_rate := cfg.leak_rate }) :=
        (admission_gate_step_characterisation cfg s t).2.2 hcap
      rw [hstep]
      dsimp only
      push_neg at hcap
      exact ih _ hchain (by dsimp only; linarith) (by dsimp only; linarith)

/-- Witness for the amended C6 at a concrete input: default config, fresh
bucket, the counterexample call times — the final level 5/2 is within
[0, capacity + 1). -/
theorem bucket_level_bounds_witness :
    0 ≤ (runBucketState defaultBucketCfg { level := 0, updated_at := 0 }
        [0, 0, 125 / 4]).level ∧
      (runBucketState defaultBucketCfg { level := 0, updated_at := 0 }
        [0, 0, 125 / 4]).level < defaultBucketCfg.capacity + 1 :=
  bucket_level_bounds defaultBucketCfg (by norm_num [defaultBucketCfg])
    { level := 0, updated_at := 0 } [0, 0, 125 / 4]
    (by norm_num) (by norm_num) (by norm_num [defaultBucketCfg])

/-- With zero elapsed time (call clock equal to `updated_at`) and a
nonnegative level, no leak occurs: the gate just compares the level with the
capacity. -/
theorem enforce_zero_elapsed (cfg : LeakyBucketConfig) (l t : ℚ)
    (hl : 0 ≤ l) :
    enforce_rate_limit cfg { level := l, updated_at := t } t =
      (if l ≥ cfg.capacity then
        ({ level := l, updated_at := t },
         .error { status_code := 503, detail := "Server is Busy" })
      else
        ({ level := l + 1, updated_at := t },
         .ok { allowed := true, status_code := 200,
               bucket_capacity := cfg.capacity,
               bucket_leak_rate := cfg.leak_rate })) := by
  unfold enforce_rate_limit
  simp [max_eq_right hl]

/-- Helper for C7: starting from level `l ≥ 0` and making `m + 1` calls all
at the clock value `updated_at` (zero elapsed time), if the first `m` calls
are all admitted then the last call is rejected iff `capacity ≤ l + m`. -/
theorem leak_mono_aux (cfg : LeakyBucketConfig) (t : ℚ) :
    ∀ (m : ℕ) (l : ℚ), 0 ≤ l →
      (runBucket cfg { level := l, updated_at := t }
          (List.replicate (m + 1) t)).2.take m = List.replicate m true →
      ((runBucket cfg { level := l, updated_at := t }
          (List.replicate (m + 1) t)).2.getD m false = false ↔
        cfg.capacity ≤ l + m) := by
  intro m
  induction m with
  | zero =>
    intro l hl _
    rw [show List.replicate (0 + 1) t = [t] from rfl]
    rw [runBucket_cons, enforce_zero_elapsed cfg l t hl]
    by_cases h : l ≥ cfg.capacity
    · simp [h, runBucket, isAdmitted]
    · simp [h, runBucket, isAdmitted]
  | succ m ih =>
    intro l hl htake
    rw [show List.replicate (m + 1 + 1) t = t :: List.replicate (m + 1) t
      from rfl] at htake ⊢
    rw [runBucket_cons] at htake ⊢
    rw [enforce_zero_elapsed cfg l t hl] at htake ⊢
    by_cases h : l ≥ cfg.capacity
    · rw [if_pos h] at htake
      rw [show List.replicate (m + 1) true = true :: List.replicate m true
        from rfl] at htake
      simp only [isAdmitted, List.take_succ_cons, List.cons.injEq] at htake
      exact absurd htake.1 (by simp)
    · rw [if_neg h] at htake ⊢
      rw [show List.replicate (m + 1) true = true :: List.replicate m true
        from rfl] at htake
      simp only [isAdmitted, List.take_succ_cons, List.cons.injEq] at htake
      have := ih (l + 1) (by linarith) htake.2
      simp only [List.getD_cons_succ]
      rw [this]
      push_cast
      constructor <;> intro <;> linarith

/-- C7. For fixed capacity `C ≥ 1` and leak rate `R > 0`, starting from a
fresh bucket (level 0) and making `N` successful admissions with zero elapsed
time between all calls, the `(N+1)`-th admission attempt is rejected iff
`N ≥ C`. -/
theorem leak_monotonicity (C R t : ℚ) (N : ℕ) (hC : 1 ≤ C) (hR : 0 < R)
    (hadm : (runBucket { capacity := C, leak_rate := R }
        { level := 0, updated_at := t }
        (List.replicate (N + 1) t)).2.take N = List.replicate N true) :
    ((runBucket { capacity := C, leak_rate := R }
        { level := 0, updated_at := t }
        (List.replicate (N + 1) t)).2.getD N false = false ↔ C ≤ (N : ℚ)) := by
  have h := leak_mono_aux { capacity := C, leak_rate := R } t N 0 le_rfl hadm
  simpa using h

/-- Witness for C7 at the concrete input `C = 2`, `R = 1`, `t = 0`, `N = 2`:
the first two calls are admitted and the third is rejected (and `2 ≥ 2`). -/
theorem leak_monotonicity_witness :
    ((runBucket { capacity := (2 : ℚ), leak_rate := (1 : ℚ) }
        { level := 0, updated_at := 0 }
        (List.replicate (2 + 1) 0)).2.getD 2 false = false ↔
      (2 : ℚ) ≤ ((2 : ℕ) : ℚ)) :=
  leak_monotonicity 2 1 0 2 (by norm_num) (by norm_num)
    (by norm_num [runBucket, enforce_rate_limit, isAdmitted, List.replicate])

/-! ### Concurrency model for the admission gate (C8)

`enforce_rate_limit` runs its read-modify-write of the shared bucket inside
`async with _bucket_lock:`; the body contains no `await`, so under asyncio's
cooperative scheduler it executes atomically once the lock is held.  Each
concurrent caller is modelled as a thread that must first acquire the lock
(one scheduler step) and then runs the critical section and releases the lock
(a second step).  A schedule is an arbitrary list of thread ids; at each step
the scheduled thread performs its next enabled action, or nothing. -/

/-- Program counter of one concurrent caller of the admission gate. -/
inductive ThreadPC where
  | ready
  | locked
  | done (admitted : Bool)
deriving DecidableEq, Repr

/-- Global state shared by `K` concurrent callers: the `asyncio.Lock` (with
its holder), the bucket state, and each caller's program counter. -/
structure SysState (K : ℕ) where
  lock : Option (Fin K)
  bucket : BucketState
  pcs : Fin K → ThreadPC

/-- One scheduler step by thread `i`: a ready thread acquires the free lock;
the lock holder runs the whole `enforce_rate_limit` critical section
atomically (it has no await point) and releases the lock; otherwise nothing
happens. All callers sample the same clock value `t` (no elapsed time). -/
def sysStep (cfg : LeakyBucketConfig) (t : ℚ) {K : ℕ} (s : SysState K)
    (i : Fin K) : SysState K :=
  match s.pcs i with
  | .ready =>
    match s.lock with
    | none =>
      { lock := some i, bucket := s.bucket,
        pcs := Function.update s.pcs i .locked }
    | some _ => s
  | .locked =>
    if s.lock = some i then
      { lock := none,
        bucket := (enforce_rate_limit cfg s.bucket t).1,
        pcs := Function.update s.pcs i
          (.done (isAdmitted (enforce_rate_limit cfg s.bucket t).2)) }
    else s
  | .done _ => s

/-- Run a whole schedule (list of thread ids, each performing its next
enabled action in turn). -/
def sysRun (cfg : LeakyBucketConfig) (t : ℚ) {K : ℕ} (sched : List (Fin K))
    (s : SysState K) : SysState K :=
  sched.foldl (sysStep cfg t) s

/-- Initial state for C8: lock free, bucket level `capacity - 1` freshly
stamped at clock `t`, all `K` callers ready. -/
def sysInit (K : ℕ) (cfg : LeakyBucketConfig) (t : ℚ) : SysState K :=
  { lock := none, bucket := { level := cfg.capacity - 1, updated_at := t },
    pcs := fun _ => .ready }

/-- Number of callers that finished admitted. -/
def admittedCount {K : ℕ} (s : SysState K) : ℕ :=
  (Finset.univ.filter fun i => s.pcs i = .done true).card

/-- Number of callers that finished rejected. -/
def rejectedCount {K : ℕ} (s : SysState K) : ℕ :=
  (Finset.univ.filter fun i => s.pcs i = .done false).card

/-- Cardinality of a filter over `Fin K` after updating one point whose old
value did not satisfy the predicate. -/
theorem card_filter_update {K : ℕ} (pcs : Fin K → ThreadPC) (i : Fin K)
    (v : ThreadPC) (p : ThreadPC → Prop) [DecidablePred p]
    (hold : ¬ p (pcs i)) :
    (Finset.univ.filter fun j => p (Function.update pcs i v j)).card =
      (Finset.univ.filter fun j => p (pcs j)).card + (if p v then 1 else 0) := by
  by_cases hv : p v
  · rw [if_pos hv]
    have hset : (Finset.univ.filter fun j => p (Function.update pcs i v j)) =
        insert i (Finset.univ.filter fun j => p (pcs j)) := by
      ext j
      by_cases hj : j = i
      · subst hj
        simp [Function.update_apply, hv]
      · simp [Function.update_apply, hj]
    rw [hset, Finset.card_insert_of_not_mem (by simp [hold])]
  · rw [if_neg hv]
    have hset : (Finset.univ.filter fun j => p (Function.update pcs i v j)) =
        (Finset.univ.filter fun j => p (pcs j)) := by
      ext j
      by_cases hj : j = i
      · subst hj
        simp [Function.update_apply, hv, hold]
      · simp [Function.update_apply, hj]
    rw [hset, Nat.add_zero]

/-- Inductive invariant for C8: the clock stamp is `t`, the level records the
baseline `capacity - 1` plus one unit per admitted caller, at most one caller
has been admitted, and once some caller has been rejected at least one has
been admitted. -/
def C8Inv (cfg : LeakyBucketConfig) (t : ℚ) {K : ℕ} (s : SysState K) : Prop :=
  s.bucket.updated_at = t ∧
  s.bucket.level = cfg.capacity - 1 + admittedCount s ∧
  admittedCount s ≤ 1 ∧
  (∀ i, s.pcs i = .done false → 1 ≤ admittedCount s)

/-- The invariant is preserved by every scheduler step. -/
theorem C8Inv_step (cfg : LeakyBucketConfig) (t : ℚ) {K : ℕ}
    (hC : 1 ≤ cfg.capacity) (s : SysState K) (i : Fin K)
    (h : C8Inv cfg t s) : C8Inv cfg t (sysStep cfg t s i) := by
  obtain ⟨hupd, hlev, hA, hrej⟩ := h
  cases hpc : s.pcs i with
  | ready =>
    cases hlock : s.lock with
    | none =>
      have hstep : sysStep cfg t s i =
          { lock := some i, bucket := s.bucket,
            pcs := Function.update s.pcs i .locked } := by
        unfold sysStep
        rw [hpc, hlock]
      rw [hstep]
      have hAeq : admittedCount
          ({ lock := some i, bucket := s.bucket,
             pcs := Function.update s.pcs i .locked } : SysState K) =
          admittedCount s := by
        unfold admittedCount
        dsimp only
        rw [card_filter_update s.pcs i _ (fun x => x = .done true)
          (by rw [hpc]; simp)]
        simp
      refine ⟨hupd, ?_, ?_, ?_⟩
      · rw [hAeq]
        exact hlev
      · rw [hAeq]
        exact hA
      · intro j hj
        rw [hAeq]
        dsimp only at hj
        rcases eq_or_ne j i with rfl | hne
        · rw [Function.update_apply, if_pos rfl] at hj
          exact absurd hj (by simp)
        · rw [Function.update_apply, if_neg hne] at hj
          exact hrej j hj
    | some j =>
      have hstep : sysStep cfg t s i = s := by
        unfold sysStep
        rw [hpc, hlock]
      rw [hstep]
      exact ⟨hupd, hlev, hA, hrej⟩
  | locked =>
    by_cases hlock : s.lock = some i
    · have hstep : sysStep cfg t s i =
          { lock := none,
            bucket := (enforce_rate_limit cfg s.bucket t).1,
            pcs := Function.update s.pcs i
              (.done (isAdmitted (enforce_rate_limit cfg s.bucket t).2)) } := by
        unfold sysStep
        rw [hpc, if_pos hlock]
      have hbs : s.bucket =
          (⟨cfg.capacity - 1 + (admittedCount s : ℚ), t⟩ : BucketState) := by
        cases hb : s.bucket with
        | mk lv u =>
          rw [hb] at hupd hlev
          dsimp only at hupd hlev
          rw [hupd, hlev]
      have hnn : (0 : ℚ) ≤ cfg.capacity - 1 + (admittedCount s : ℚ) := by
        have hc0 : (0 : ℚ) ≤ (admittedCount s : ℚ) := Nat.cast_nonneg _
        linarith
      rw [hstep, hbs, enforce_zero_elapsed cfg _ t hnn]
      by_cases hfull : cfg.capacity - 1 + (admittedCount s : ℚ) ≥ cfg.capacity
      · -- rejection branch: some caller was already admitted
        have hA1 : 1 ≤ admittedCount s := by
          have h1 : (1 : ℚ) ≤ (admittedCount s : ℚ) := by linarith
          exact_mod_cast h1
        rw [if_pos hfull]
        dsimp only [isAdmitted]
        have hAeq : admittedCount
            ({ lock := none,
               bucket := ⟨cfg.capacity - 1 + (admittedCount s : ℚ), t⟩,
               pcs := Function.update s.pcs i (.done false) } : SysState K) =
            admittedCount s := by
          unfold admittedCount
          dsimp only
          rw [card_filter_update s.pcs i _ (fun x => x = .done true)
            (by rw [hpc]; simp)]
          simp
        exact ⟨rfl, by rw [hAeq], by rw [hAeq]; exact hA,
          fun j _ => by rw [hAeq]; exact hA1⟩
      · -- admission branch: nobody was admitted yet
        have hA0 : admittedCount s = 0 := by
          by_contra hcon
          have h1 : 1 ≤ admittedCount s := Nat.one_le_iff_ne_zero.mpr hcon
          have h1q : (1 : ℚ) ≤ (admittedCount s : ℚ) := by exact_mod_cast h1
          push_neg at hfull
          linarith
        rw [if_neg hfull]
        dsimp only [isAdmitted]
        have hAeq : admittedCount
            ({ lock := none,
               bucket := ⟨cfg.capacity - 1 + (admittedCount s : ℚ) + 1, t⟩,
               pcs := Function.update s.pcs i (.done true) } : SysState K) =
            admittedCount s + 1 := by
          unfold admittedCount
          dsimp only
          rw [card_filter_update s.pcs i _ (fun x => x = .done true)
            (by rw [hpc]; simp)]
          simp
        refine ⟨rfl, ?_, ?_, ?_⟩
        · rw [hAeq]
          push_cast
          ring
        · rw [hAeq, hA0]
        · intro j _
          rw [hAeq]
          omega
    · have hstep : sysStep cfg t s i = s := by
        unfold sysStep
        rw [hpc, if_neg hlock]
      rw [hstep]
      exact ⟨hupd, hlev, hA, hrej⟩
  | done d =>
    have hstep : sysStep cfg t s i = s := by
      unfold sysStep
      rw [hpc]
    rw [hstep]
    exact ⟨hupd, hlev, hA, hrej⟩

/-- The invariant holds initially and is preserved by any schedule. -/
theorem C8Inv_run (cfg : LeakyBucketConfig) (t : ℚ) {K : ℕ}
    (hC : 1 ≤ cfg.capacity) (sched : List (Fin K)) (s : SysState K)
    (h : C8Inv cfg t s) : C8Inv cfg t (sysRun cfg t sched s) := by
  induction sched generalizing s with
  | nil => exact h
  | cons i sched ih => exact ih _ (C8Inv_step cfg t hC s i h)

theorem C8Inv_init (cfg : LeakyBucketConfig) (t : ℚ) (K : ℕ) :
    C8Inv cfg t (sysInit K cfg t) := by
  have hA : admittedCount (sysInit K cfg t) = 0 := by
    unfold admittedCount sysInit
    simp
  refine ⟨rfl, ?_, ?_, ?_⟩
  · rw [hA]
    simp [sysInit]
  · rw [hA]
    omega
  · intro i hi
    simp [sysInit] at hi

/-- C8. The admission check is one atomic critical section over the shared
state: for every schedule of `K ≥ 1` concurrent callers starting with the
level at `capacity - 1` (no elapsed time), if all callers have completed then
exactly one was admitted, the other `K - 1` were rejected, and the final level
is exactly `capacity` — no lost updates and no double counting. -/
theorem no_lost_updates (K : ℕ) (cfg : LeakyBucketConfig) (t : ℚ)
    (hK : 0 < K) (hC : 1 ≤ cfg.capacity) (sched : List (Fin K))
    (hdone : ∀ i, ∃ d, (sysRun cfg t sched (sysInit K cfg t)).pcs i = .done d) :
    admittedCount (sysRun cfg t sched (sysInit K cfg t)) = 1 ∧
    rejectedCount (sysRun cfg t sched (sysInit K cfg t)) = K - 1 ∧
    (sysRun cfg t sched (sysInit K cfg t)).bucket.level = cfg.capacity := by
  obtain ⟨-, hlev, hA, hrej⟩ :=
    C8Inv_run cfg t hC sched (sysInit K cfg t) (C8Inv_init cfg t K)
  set sF := sysRun cfg t sched (sysInit K cfg t) with hsF
  have hA1 : admittedCount sF = 1 := by
    rcases Nat.lt_or_ge (admittedCount sF) 1 with hlt | hge
    · exfalso
      have hA0 : admittedCount sF = 0 := by omega
      obtain ⟨d, hd⟩ := hdone ⟨0, hK⟩
      cases d with
      | true =>
        have : (⟨0, hK⟩ : Fin K) ∈
            (Finset.univ.filter fun i => sF.pcs i = .done true) := by
          simp [hd]
        have hpos : 0 < admittedCount sF := Finset.card_pos.mpr ⟨_, this⟩
        omega
      | false =>
        have := hrej _ hd
        omega
    · omega
  have hsum : admittedCount sF + rejectedCount sF = K := by
    unfold admittedCount rejectedCount
    rw [← Finset.card_union_of_disjoint]
    · have huniv : ((Finset.univ.filter fun i => sF.pcs i = .done true) ∪
          (Finset.univ.filter fun i => sF.pcs i = .done false)) =
          Finset.univ := by
        ext i
        obtain ⟨d, hd⟩ := hdone i
        cases d <;> simp [hd]
      rw [huniv, Finset.card_univ, Fintype.card_fin]
    · rw [Finset.disjoint_filter]
      intro i _ h1 h2
      rw [h1] at h2
      exact absurd h2 (by simp)
  refine ⟨hA1, by omega, ?_⟩
  rw [hlev, hA1]
  push_cast
  ring

/-- Witness for C8 at a concrete input: one caller (`K = 1`), capacity 1,
schedule "acquire then run": the single caller is admitted. -/
theorem no_lost_updates_witness :
    admittedCount (sysRun { capacity := 1, leak_rate := 1 } 0
        [(0 : Fin 1), 0] (sysInit 1 { capacity := 1, leak_rate := 1 } 0)) = 1 ∧
    rejectedCount (sysRun { capacity := 1, leak_rate := 1 } 0
        [(0 : Fin 1), 0] (sysInit 1 { capacity := 1, leak_rate := 1 } 0)) = 1 - 1 ∧
    (sysRun { capacity := 1, leak_rate := 1 } 0
        [(0 : Fin 1), 0]
        (sysInit 1 { capacity := 1, leak_rate := 1 } 0)).bucket.level = 1 :=
  no_lost_updates 1 { capacity := 1, leak_rate := 1 } 0 (by norm_num)
    (by norm_num) [(0 : Fin 1), 0]
    (by
      intro i
      fin_cases i
      refine ⟨true, ?_⟩
      norm_num [sysRun, sysStep, sysInit, enforce_rate_limit, isAdmitted,
        Function.update_apply])

/-! ### File handling (`src/services/file_handler.py`)

Python strings are `List Char` (ASCII case folding via `Char.toLower`,
matching `str.lower` on the ASCII inputs relevant here), byte strings are
`List Nat`.  The filesystem state relevant to one upload — the destination
file under `PDF_STORAGE_DIR` and its metadata sidecar — is threaded
explicitly.  I/O write failures are driven by an explicit fault-injection
parameter (`none` / `false` = every write succeeds, the normal run). -/

/-- Python string, as its list of characters. -/
abbrev PyStr := List Char

/-- Python byte string, one `Nat` per byte. -/
abbrev Bytes := List Nat

/-- The 4 ASCII bytes of the PDF signature `b'%PDF'`. -/
def PDF_MAGIC : Bytes := [37, 80, 68, 70]

/-- Constant `MAX_PDF_SIZE_BYTES = 100 * 1024 * 1024` from
`src/models/api_models.py`. -/
def MAX_PDF_SIZE_BYTES : Nat := 100 * 1024 * 1024

/-- Whitespace recognised by Python `str.strip()` (the `str.isspace()`
characters): ASCII whitespace including the file/group/record/unit
separators, plus the Unicode space characters. -/
def pyIsSpace (c : Char) : Bool :=
  [' ', '\t', '\n', '\r', '\x0b', '\x0c', '\x1c', '\x1d', '\x1e', '\x1f',
   '\x85', '\xa0', '\u1680', '\u2000', '\u2001', '\u2002', '\u2003',
   '\u2004', '\u2005', '\u2006', '\u2007', '\u2008', '\u2009', '\u200a',
   '\u2028', '\u2029', '\u202f', '\u205f', '\u3000'].contains c

/-- Python `str.strip()`: drop leading and trailing whitespace. -/
def pyStrip (s : PyStr) : PyStr :=
  ((s.dropWhile pyIsSpace).reverse.dropWhile pyIsSpace).reverse

/-- Python `str.lower()` (ASCII case folding). -/
def pyLower (s : PyStr) : PyStr := s.map Char.toLower

/-- The extension required by `_check_type`'s fallback. -/
def PDF_EXT : PyStr := ".pdf".toList

/-- The content types accepted by `_check_type`:
`("application/pdf", "application/x-pdf")`. -/
def ALLOWED_CONTENT_TYPES : List PyStr :=
  ["application/pdf".toList, "application/x-pdf".toList]

/-- Fallback branch of `_check_type` when no (nonempty) content-type header
is present: require a case-insensitive `.pdf` extension on the file name. -/
def check_ext_fallback (file_name : PyStr) : Option HTTPError :=
  if PDF_EXT.isSuffixOf (pyLower file_name) then none
  else some { status_code := 415,
              detail := "Missing content-type header. Only PDF files are allowed" }

/-- Model of `_check_type` from `src/services/file_handler.py` (lines 53-72).
When a truthy (present, nonempty) content-type header is supplied, only the
lower-cased header is checked against the allowed MIME types; otherwise the
file name must end in `.pdf` case-insensitively.  Returns `none` for ok, or
the raised `HTTPException`. -/
def check_type (file_name : PyStr) (content_type : Option PyStr) :
    Option HTTPError :=
  match content_type with
  | some ct =>
    if ct = [] then check_ext_fallback file_name
    else if pyLower ct ∈ ALLOWED_CONTENT_TYPES then none
    else some { status_code := 415, detail := "Only PDF files are allowed" }
  | none => check_ext_fallback file_name

/-- Value of an ASCII digit string (helper for `int(...)`). -/
def digitsToNat (ds : PyStr) : Nat :=
  ds.foldl (fun a c => a * 10 + (c.toNat - 48)) 0

/-- Model of Python `int(s)` on the decimal strings relevant here: optional
surrounding whitespace, optional sign, at least one ASCII digit; anything
else raises `ValueError` (modelled as `none`). -/
def parse_py_int (s : PyStr) : Option Int :=
  match pyStrip s with
  | '-' :: ds =>
    if ds ≠ [] ∧ ds.all Char.isDigit then some (-(digitsToNat ds : Int))
    else none
  | '+' :: ds =>
    if ds ≠ [] ∧ ds.all Char.isDigit then some (digitsToNat ds : Int)
    else none
  | ds =>
    if ds ≠ [] ∧ ds.all Char.isDigit then some (digitsToNat ds : Int)
    else none

/-- Model of the declared content-length check in `handle_pdf_upload` (lines
144-156): a missing or falsy (empty) header, or one that fails `int(...)`,
is not an error; a parsed value over the ceiling raises 413. -/
def check_length (content_length : Option PyStr) : Option HTTPError :=
  match content_length with
  | none => none
  | some s =>
    if s = [] then none
    else
      match parse_py_int s with
      | none => none
      | some v =>
        if v > (MAX_PDF_SIZE_BYTES : Int) then
          some { status_code := 413,
                 detail := "Cannot be Upload! Max File size is 100 MB" }
        else none

/-- Outcome of `_stream_to_disk`. -/
inductive StreamOutcome where
  | ok (written : Nat) (is_valid_pdf : Bool)
  | tooLarge
  | ioFailure
deriving DecidableEq, Repr

/-- End-of-stream signature resolution of `_stream_to_disk` (lines 115-119):
if no non-empty chunk arrived, or the first one was shorter than 4 bytes
while at least 4 bytes were written, re-read the first 4 bytes of the
written file; otherwise keep the flag computed from the first chunk. -/
def stream_finish (content : Bytes) (written : Nat) (firstChunk : Option Bytes)
    (valid : Bool) : Bool :=
  match firstChunk with
  | none => decide (content.take 4 = PDF_MAGIC)
  | some c =>
    if c.length < 4 ∧ 4 ≤ written then decide (content.take 4 = PDF_MAGIC)
    else valid

/-- Update of `first_chunk` on a non-empty chunk (lines 101-102): the first
non-empty chunk is captured once. -/
def stepFirst (fc : Option Bytes) (c : Bytes) : Option Bytes :=
  match fc with
  | none => some c
  | some c0 => some c0

/-- Update of `is_valid_pdf` on a non-empty chunk (lines 101-104): set from
the first chunk's first 4 bytes when it has at least 4, otherwise left as
is. -/
def stepValid (fc : Option Bytes) (c : Bytes) (valid : Bool) : Bool :=
  match fc with
  | none => if 4 ≤ c.length then decide (c.take 4 = PDF_MAGIC) else valid
  | some _ => valid

/-- Main loop of `_stream_to_disk` (lines 95-113).  State: `content` is what
has been written to the destination so far, `written` the running byte count,
`firstChunk` the first non-empty chunk seen, `valid` the signature flag,
`wIdx` the index of the next `f.write` call (used by fault injection:
`failAt = some wIdx` makes that write raise an I/O error).  Returns the
destination file state (`none` = deleted) and the outcome. -/
def stream_loop (maxBytes : Nat) (failAt : Option Nat) :
    List Bytes → Bytes → Nat → Option Bytes → Bool → Nat →
    Option Bytes × StreamOutcome
  | [], content, written, firstChunk, valid, _ =>
    (some content, .ok written (stream_finish content written firstChunk valid))
  | c :: rest, content, written, firstChunk, valid, wIdx =>
    if c = [] then stream_loop maxBytes failAt rest content written firstChunk valid wIdx
    else if maxBytes < written + c.length then (none, .tooLarge)
    else if failAt = some wIdx then (some content, .ioFailure)
    else stream_loop maxBytes failAt rest (content ++ c) (written + c.length)
      (stepFirst firstChunk c) (stepValid firstChunk c valid) (wIdx + 1)

/-- Model of `_stream_to_disk(stream, dest, max_bytes)` (lines 86-121): the
destination is opened for writing (truncated to empty), the chunks are
consumed in order, and the final signature flag is resolved. -/
def stream_to_disk (stream : List Bytes) (maxBytes : Nat)
    (failAt : Option Nat) : Option Bytes × StreamOutcome :=
  stream_loop maxBytes failAt stream [] 0 none false 0

/-- Total number of bytes in a chunk sequence. -/
def sizeSum (chunks : List Bytes) : Nat := (chunks.map List.length).sum

/-- Concatenation of a chunk sequence. -/
def joinBytes : List Bytes → Bytes
  | [] => []
  | c :: cs => c ++ joinBytes cs

/-! ### Metadata (`_write_metadata` and `parse_metadata_file`) -/

/-- Hexadecimal digit character (lowercase), as in `str(uuid.UUID)`. -/
def hexDigitChar (d : Nat) : Char :=
  "0123456789abcdef".toList.getD d '0'

/-- Fixed-width lowercase hexadecimal rendering of `n` (most significant
digit first). -/
def toHex (n k : Nat) : PyStr :=
  (List.range k).map fun i => hexDigitChar (n / 16 ^ (k - 1 - i) % 16)

/-- Model of `str(uuid.UUID)`: the 128-bit value as 32 lowercase hex digits
in 8-4-4-4-12 groups separated by dashes. -/
def uuidStr (n : Nat) : PyStr :=
  toHex (n % 2 ^ 128) 32 |> fun h =>
    h.take 8 ++ '-' :: (h.drop 8).take 4 ++ '-' :: (h.drop 12).take 4 ++
      '-' :: (h.drop 16).take 4 ++ '-' :: h.drop 20

/-- Model of `datetime.datetime` (as produced by `datetime.utcnow()`). -/
structure PyDateTime where
  year : Nat
  month : Nat
  day : Nat
  hour : Nat
  minute : Nat
  second : Nat
  microsecond : Nat
deriving DecidableEq, Repr

/-- Decimal digit character. -/
def decDigitChar (d : Nat) : Char :=
  "0123456789".toList.getD d '0'

/-- Zero-padded fixed-width decimal rendering. -/
def padNum (n w : Nat) : PyStr :=
  (List.range w).map fun i => decDigitChar (n / 10 ^ (w - 1 - i) % 10)

/-- Model of `datetime.isoformat()`: `YYYY-MM-DDTHH:MM:SS[.ffffff]`, the
microseconds part omitted when zero. -/
def isoformat (dt : PyDateTime) : PyStr :=
  padNum dt.year 4 ++ '-' :: padNum dt.month 2 ++ '-' :: padNum dt.day 2 ++
    'T' :: padNum dt.hour 2 ++ ':' :: padNum dt.minute 2 ++
    ':' :: padNum dt.second 2 ++
    (if dt.microsecond = 0 then [] else '.' :: padNum dt.microsecond 6)

/-- Model of `FileMetadata` (`src/models/api_models.py`): the UUID as its
128-bit value, the timestamp structurally. -/
structure FileMetadata where
  unique_id : Nat
  file_name : PyStr
  storage_path : PyStr
  uploaded_at : PyDateTime
deriving DecidableEq, Repr

/-- The four `key=value` lines written by `_write_metadata` (lines 75-83). -/
def metadata_lines (m : FileMetadata) : List PyStr :=
  ["unique_id=".toList ++ uuidStr m.unique_id,
   "file_name=".toList ++ m.file_name,
   "storage_path=".toList ++ m.storage_path,
   "uploaded_at=".toList ++ isoformat m.uploaded_at]

/-- Python `"\n".join(...)`. -/
def joinNl : List PyStr → PyStr
  | [] => []
  | [l] => l
  | l :: ls => l ++ '\n' :: joinNl ls

/-- Content of the sidecar file written by `_write_metadata`:
`"\n".join(lines)`. -/
def write_metadata_content (m : FileMetadata) : PyStr :=
  joinNl (metadata_lines m)

/-- Model of `MetadataRecord` (`src/models/api_models.py`), the store-ready
projection with stringified fields, as re-parsed from a sidecar file. -/
structure MetadataRecord where
  unique_id : PyStr
  file_name : PyStr
  storage_path : PyStr
  uploaded_at : PyStr
deriving DecidableEq, Repr

/-- The line boundaries of Python `str.splitlines()`: `\n`, `\r` (with
`\r\n` counting as one), vertical tab, form feed, the file/group/record
separators `\x1c`-`\x1e`, next line `\x85`, and the Unicode line/paragraph
separators. -/
def pyIsLineBoundary (c : Char) : Bool :=
  ['\n', '\r', '\x0b', '\x0c', '\x1c', '\x1d', '\x1e', '\x85',
   '\u2028', '\u2029'].contains c

/-- Model of `str.splitlines()`: split at every line boundary, `\r\n`
counting as a single boundary; no trailing empty line. -/
def pySplitlinesGo : List Char → List Char → List (List Char)
  | [], acc => [acc.reverse]
  | '\r' :: '\n' :: rest, acc =>
    if rest = [] then [acc.reverse] else acc.reverse :: pySplitlinesGo rest []
  | c :: rest, acc =>
    if pyIsLineBoundary c then
      if rest = [] then [acc.reverse] else acc.reverse :: pySplitlinesGo rest []
    else pySplitlinesGo rest (c :: acc)

/-- Python `str.splitlines()` (empty string gives no lines). -/
def pySplitlines (s : PyStr) : List PyStr :=
  if s = [] then [] else pySplitlinesGo s []

/-- Python `line.partition("=")`, keeping only the before/after parts used
by `parse_metadata_file`: split at the FIRST `=`. -/
def pyPartitionEq (l : PyStr) : PyStr × PyStr :=
  (l.takeWhile fun c => c ≠ '=', (l.dropWhile fun c => c ≠ '=').drop 1)

/-- One iteration of the parse loop of `parse_metadata_file` (lines 78-82):
a line containing `=` binds `key.strip()` to `val.strip()`; later lines
shadow earlier ones (dict assignment), modelled by prepending so that
`List.lookup` finds the latest binding. -/
def parse_line_into (d : List (PyStr × PyStr)) (line : PyStr) :
    List (PyStr × PyStr) :=
  if '=' ∈ line then
    (pyStrip (pyPartitionEq line).1, pyStrip (pyPartitionEq line).2) :: d
  else d

/-- The `data` dict built by `parse_metadata_file` (lines 77-82). -/
def parse_metadata_dict (lines : List PyStr) : List (PyStr × PyStr) :=
  lines.foldl parse_line_into []

/-- Model of `parse_metadata_file` from `src/services/db_manager.py` (lines
62-98) applied to the file content: split into lines, build the key/value
dict, and require the four keys (`None` when any is missing).  The pydantic
coercion of the looked-up strings is modelled as the stringified record
(spec §3: "all fields stringified"). -/
def parse_metadata_file (content : PyStr) : Option MetadataRecord :=
  let data := parse_metadata_dict (pySplitlines content)
  match data.lookup "unique_id".toList, data.lookup "file_name".toList,
      data.lookup "storage_path".toList, data.lookup "uploaded_at".toList with
  | some u, some f, some s, some t =>
    some { unique_id := u, file_name := f, storage_path := s, uploaded_at := t }
  | _, _, _, _ => none

/-! ### The upload request lifecycle (`handle_pdf_upload`) -/

/-- Constant `PDF_STORAGE_DIR` from `src/models/api_models.py` as a string. -/
def PDF_STORAGE_DIR : PyStr :=
  "C:\\Users\\Admin\\Desktop\\rag-hootone\\data\\uploads\\PDF".toList

/-- Model of `_storage_path(file_name)`: join the storage directory with the
file name (Windows path separator). -/
def storage_path_of (file_name : PyStr) : PyStr :=
  PDF_STORAGE_DIR ++ '\\' :: file_name

/-- Inputs of one upload request: the three headers as received (absent or
their string value) and the body as the chunk sequence yielded by
`request.stream()`. -/
structure UploadRequest where
  file_name : Option PyStr
  content_type : Option PyStr
  content_length : Option PyStr
  stream : List Bytes
deriving DecidableEq, Repr

/-- Filesystem state relevant to one upload: the destination file for the
requested name (with its byte content) and the metadata sidecar for that
name (with its text content); `none` = the file does not exist. -/
structure FSState where
  dest : Option Bytes
  sidecar : Option PyStr
deriving DecidableEq, Repr

/-- Fault injection for the fallible writes: the index of the `f.write` call
inside `_stream_to_disk` that raises an I/O error (if any), and whether the
sidecar `write_text` in `_write_metadata` raises. -/
structure Faults where
  streamFailAt : Option Nat
  metaWriteFails : Bool
deriving DecidableEq, Repr

/-- The normal run: every write succeeds. -/
def noFaults : Faults := { streamFailAt := none, metaWriteFails := false }

/-- Wire-level outcome of one upload request: 201 success, a raised
`HTTPException` (translated by the `http_exception_handler`), or an
unhandled exception reaching the catch-all handler (HTTP 500). -/
inductive UploadOutcome where
  | created
  | httpError (e : HTTPError)
  | internalError
deriving DecidableEq, Repr

/-- Model of `handle_pdf_upload` from `src/services/file_handler.py` (lines
124-188): header checks, `_check_type`, declared-length check,
`_check_duplicate`, `_stream_to_disk`, signature enforcement, and
`_write_metadata`.  The fresh UUID and the capture time are passed in as
parameters (they are generated inside the Python function); `fs` is the
filesystem state for the requested name before the call. -/
def handle_pdf_upload (req : UploadRequest) (uid : Nat) (now : PyDateTime)
    (fs : FSState) (faults : Faults) : FSState × UploadOutcome :=
  match req.file_name with
  | none =>
    (fs, .httpError { status_code := 400,
                      detail := "Missing file name header: x-file-name" })
  | some fn =>
    if fn = [] then
      (fs, .httpError { status_code := 400,
                        detail := "Missing file name header: x-file-name" })
    else
      match check_type fn req.content_type with
      | some e => (fs, .httpError e)
      | none =>
        match check_length req.content_length with
        | some e => (fs, .httpError e)
        | none =>
          if fs.dest.isSome then
            (fs, .httpError { status_code := 409, detail := "File already Exist!" })
          else
            match stream_to_disk req.stream MAX_PDF_SIZE_BYTES
                faults.streamFailAt with
            | (d, .tooLarge) =>
              ({ dest := d, sidecar := fs.sidecar },
               .httpError { status_code := 413,
                            detail := "Cannot be Upload! Max File size is 100 MB" })
            | (d, .ioFailure) =>
              ({ dest := d, sidecar := fs.sidecar }, .internalError)
            | (d, .ok _ valid) =>
              if valid then
                if faults.metaWriteFails then
                  ({ dest := d, sidecar := fs.sidecar }, .internalError)
                else
                  ({ dest := d,
                     sidecar := some (write_metadata_content
                       { unique_id := uid, file_name := fn,
                         storage_path := storage_path_of fn,
                         uploaded_at := now }) },
                   .created)
              else
                ({ dest := none, sidecar := fs.sidecar },
                 .httpError { status_code := 415,
                              detail := "File content is not a valid PDF file" })

/-! ### Lemmas about the streaming engine -/

/-- Signature flag of a byte string: its first 4 bytes are `%PDF`. -/
def sigOf (b : Bytes) : Bool := decide (b.take 4 = PDF_MAGIC)

theorem joinBytes_length (chunks : List Bytes) :
    (joinBytes chunks).length = sizeSum chunks := by
  induction chunks with
  | nil => rfl
  | cons c cs ih => simp [joinBytes, sizeSum, List.length_append] at ih ⊢; omega

theorem sizeSum_cons (c : Bytes) (cs : List Bytes) :
    sizeSum (c :: cs) = c.length + sizeSum cs := by
  simp [sizeSum]

/-- A byte string shorter than 4 bytes never carries the signature. -/
theorem sigOf_short (content : Bytes) (h : content.length < 4) :
    sigOf content = false := by
  simp only [sigOf, decide_eq_false_iff_not]
  intro heq
  have hlen := congrArg List.length heq
  simp only [List.length_take, PDF_MAGIC] at hlen
  simp at hlen
  omega

/-- Invariant of the `_stream_to_disk` loop state: `firstChunk` is the first
non-empty chunk (absent iff nothing was written), it is a prefix of the
written content, and `valid` is the signature flag of the content when the
first chunk carried at least 4 bytes, `false` otherwise. -/
def StreamInv (content : Bytes) (fc : Option Bytes) (v : Bool) : Prop :=
  match fc with
  | none => content = [] ∧ v = false
  | some c => c ≠ [] ∧ content.take c.length = c ∧
      v = (if 4 ≤ c.length then sigOf content else false)

/-- Under the loop invariant, the end-of-stream resolution computes exactly
the signature flag of the written content. -/
theorem stream_finish_inv (content : Bytes) (fc : Option Bytes) (v : Bool)
    (h : StreamInv content fc v) :
    stream_finish content content.length fc v = sigOf content := by
  cases fc with
  | none => rfl
  | some c =>
    obtain ⟨_, htake, hv⟩ := h
    have hlen : c.length ≤ content.length := by
      have h2 := congrArg List.length htake
      simp only [List.length_take] at h2
      simp at h2
      omega
    simp only [stream_finish]
    by_cases h4 : c.length < 4 ∧ 4 ≤ content.length
    · rw [if_pos h4]
      rfl
    · rw [if_neg h4, hv]
      by_cases hc4 : 4 ≤ c.length
      · rw [if_pos hc4]
      · rw [if_neg hc4]
        push_neg at h4 hc4
        rw [sigOf_short content (by omega)]

/-- If the running total would cross the ceiling somewhere in the remaining
chunks, the loop aborts with the destination deleted and the too-large
outcome (and never reads past the crossing chunk). -/
theorem stream_loop_over (maxB : Nat) :
    ∀ (chunks : List Bytes) (content : Bytes) (written : Nat)
      (fc : Option Bytes) (v : Bool) (idx : Nat),
      written ≤ maxB → maxB < written + sizeSum chunks →
      stream_loop maxB none chunks content written fc v idx =
        (none, .tooLarge) := by
  intro chunks
  induction chunks with
  | nil =>
    intro content written fc v idx hle hover
    rw [sizeSum] at hover
    simp at hover
    omega
  | cons c cs ih =>
    intro content written fc v idx hle hover
    rw [sizeSum_cons] at hover
    by_cases hc : c = []
    · subst hc
      rw [stream_loop, if_pos rfl]
      exact ih content written fc v idx hle (by simpa using hover)
    · rw [stream_loop, if_neg hc]
      by_cases hover1 : maxB < written + c.length
      · simp only [hover1, if_true]
      · rw [if_neg hover1]
        have hne : ¬ ((none : Option Nat) = some idx) := by simp
        rw [if_neg hne]
        exact ih _ _ _ _ _ (by omega) (by omega)

/-- If the total byte count fits under the ceiling, the loop writes every
chunk, returns the total as the byte count, and resolves the signature flag
of the whole content — the faithful functional characterisation of
`_stream_to_disk` on fully consumed streams. -/
theorem stream_loop_ok (maxB : Nat) :
    ∀ (chunks : List Bytes) (content : Bytes) (fc : Option Bytes) (v : Bool)
      (idx : Nat),
      content.length + sizeSum chunks ≤ maxB →
      StreamInv content fc v →
      stream_loop maxB none chunks content content.length fc v idx =
        (some (content ++ joinBytes chunks),
         .ok (content.length + sizeSum chunks)
           (sigOf (content ++ joinBytes chunks))) := by
  intro chunks
  induction chunks with
  | nil =>
    intro content fc v idx hle hinv
    rw [stream_loop, stream_finish_inv content fc v hinv]
    simp [sizeSum, joinBytes]
  | cons c cs ih =>
    intro content fc v idx hle hinv
    rw [sizeSum_cons] at hle
    by_cases hc : c = []
    · subst hc
      rw [stream_loop, if_pos rfl]
      have := ih content fc v idx (by simpa using hle) hinv
      rw [this]
      simp [sizeSum_cons, joinBytes]
    · rw [stream_loop, if_neg hc]
      have hnotover : ¬ maxB < content.length + c.length := by omega
      rw [if_neg hnotover]
      have hne : ¬ ((none : Option Nat) = some idx) := by simp
      rw [if_neg hne]
      cases fc with
      | none =>
        obtain ⟨hcontent, hv⟩ := hinv
        subst hcontent
        subst hv
        have hinv' : StreamInv ([] ++ c) (some c)
            (if 4 ≤ c.length then decide (c.take 4 = PDF_MAGIC) else false) := by
          refine ⟨hc, by simp, ?_⟩
          simp [sigOf]
        have hlen : ([] : Bytes).length + c.length = (([] : Bytes) ++ c).length := by
          simp
        rw [hlen]
        simp only [stepFirst, stepValid]
        have := ih ([] ++ c) (some c)
          (if 4 ≤ c.length then decide (c.take 4 = PDF_MAGIC) else false)
          (idx + 1) (by simp; omega) hinv'
        rw [this]
        simp [joinBytes, sizeSum_cons]
      | some c0 =>
        obtain ⟨hc0, htake, hv⟩ := hinv
        have hlen0 : c0.length ≤ content.length := by
          have h2 := congrArg List.length htake
          simp only [List.length_take] at h2
          simp at h2
          omega
        have hinv' : StreamInv (content ++ c) (some c0) v := by
          refine ⟨hc0, ?_, ?_⟩
          · rw [List.take_append_of_le_length hlen0]
            exact htake
          · rw [hv]
            by_cases h4 : 4 ≤ c0.length
            · rw [if_pos h4, if_pos h4]
              unfold sigOf
              rw [List.take_append_of_le_length (by omega)]
            · rw [if_neg h4, if_neg h4]
        have hlen : content.length + c.length = (content ++ c).length := by
          simp
        rw [hlen]
        simp only [stepFirst, stepValid]
        have := ih (content ++ c) (some c0) v (idx + 1)
          (by simp; omega) hinv'
        rw [this]
        simp [joinBytes, sizeSum_cons, List.append_assoc]
        omega

theorem sizeSum_append (xs ys : List Bytes) :
    sizeSum (xs ++ ys) = sizeSum xs + sizeSum ys := by
  simp [sizeSum]

/-- On a run without injected I/O faults, `_stream_to_disk` either aborts
with the destination deleted (ceiling crossed) or consumes the whole stream
and reports the total byte count and the content signature flag. -/
theorem stream_to_disk_no_fault_cases (chunks : List Bytes) (maxB : Nat) :
    stream_to_disk chunks maxB none = (none, .tooLarge) ∨
      (sizeSum chunks ≤ maxB ∧
       stream_to_disk chunks maxB none =
         (some (joinBytes chunks),
          .ok (sizeSum chunks) (sigOf (joinBytes chunks)))) := by
  rcases le_or_lt (sizeSum chunks) maxB with h | h
  · right
    refine ⟨h, ?_⟩
    have := stream_loop_ok maxB chunks [] none false 0 (by simpa using h)
      ⟨rfl, rfl⟩
    simpa [stream_to_disk] using this
  · left
    exact stream_loop_over maxB chunks [] 0 none false 0 (Nat.zero_le _)
      (by omega)

/-- Reduction of `handle_pdf_upload` past the pre-stream checks: with a
nonempty file name, passing type and length checks, and no file under that
name yet, the result is determined by `_stream_to_disk`. -/
theorem handle_reaches_stream (fn : PyStr) (ct cl : Option PyStr)
    (chunks : List Bytes) (uid : Nat) (now : PyDateTime) (m0 : Option PyStr)
    (faults : Faults) (hfn : fn ≠ []) (hct : check_type fn ct = none)
    (hcl : check_length cl = none) :
    handle_pdf_upload ⟨some fn, ct, cl, chunks⟩ uid now ⟨none, m0⟩ faults =
      (match stream_to_disk chunks MAX_PDF_SIZE_BYTES faults.streamFailAt with
       | (d, .tooLarge) =>
         (⟨d, m0⟩,
          .httpError ⟨413, "Cannot be Upload! Max File size is 100 MB"⟩)
       | (d, .ioFailure) => (⟨d, m0⟩, .internalError)
       | (d, .ok _ valid) =>
         if valid then
           if faults.metaWriteFails then (⟨d, m0⟩, .internalError)
           else
             (⟨d, some (write_metadata_content
                ⟨uid, fn, storage_path_of fn, now⟩)⟩, .created)
         else
           (⟨none, m0⟩,
            .httpError ⟨415, "File content is not a valid PDF file"⟩)) := by
  simp only [handle_pdf_upload, if_neg hfn, hct, hcl, Option.isSome_none,
    Bool.false_eq_true, if_false]

/-- C2. For every chunk sequence streamed to disk with ceiling `max_bytes`,
if the running byte total first exceeds the ceiling at some chunk, the engine
aborts at that chunk: the partially written destination file is deleted, the
request fails with HTTP 413, and no further chunks of the stream are
consumed (the result is the same for every continuation `ys`) — also when no
content-length was declared (`check_length` passes, in particular for an
absent header). -/
theorem stream_ceiling_abort (fn : PyStr) (ct cl : Option PyStr)
    (uid : Nat) (now : PyDateTime) (m0 : Option PyStr)
    (pre : List Bytes) (c : Bytes) (ys : List Bytes)
    (hfn : fn ≠ []) (hct : check_type fn ct = none)
    (hcl : check_length cl = none)
    (hpre : sizeSum pre ≤ MAX_PDF_SIZE_BYTES)
    (hover : MAX_PDF_SIZE_BYTES < sizeSum pre + c.length) :
    stream_to_disk (pre ++ c :: ys) MAX_PDF_SIZE_BYTES none =
      (none, .tooLarge) ∧
    handle_pdf_upload ⟨some fn, ct, cl, pre ++ c :: ys⟩ uid now ⟨none, m0⟩
        noFaults =
      (⟨none, m0⟩,
       .httpError ⟨413, "Cannot be Upload! Max File size is 100 MB"⟩) := by
  have hstream : stream_to_disk (pre ++ c :: ys) MAX_PDF_SIZE_BYTES none =
      (none, .tooLarge) := by
    apply stream_loop_over MAX_PDF_SIZE_BYTES _ _ _ _ _ _ (Nat.zero_le _)
    rw [sizeSum_append, sizeSum_cons]
    omega
  refine ⟨hstream, ?_⟩
  rw [handle_reaches_stream fn ct cl _ uid now m0 noFaults hfn hct hcl]
  rw [show noFaults.streamFailAt = none from rfl, hstream]

/-- Helper: the upload outcome when the whole stream fits under the ceiling
but its content does not begin with `%PDF` — destination deleted, HTTP 415. -/
theorem handle_bad_signature (fn : PyStr) (ct cl : Option PyStr)
    (chunks : List Bytes) (uid : Nat) (now : PyDateTime) (m0 : Option PyStr)
    (hfn : fn ≠ []) (hct : check_type fn ct = none)
    (hcl : check_length cl = none)
    (hsize : sizeSum chunks ≤ MAX_PDF_SIZE_BYTES)
    (hsig : (joinBytes chunks).take 4 ≠ PDF_MAGIC) :
    handle_pdf_upload ⟨some fn, ct, cl, chunks⟩ uid now ⟨none, m0⟩ noFaults =
      (⟨none, m0⟩,
       .httpError ⟨415, "File content is not a valid PDF file"⟩) := by
  have hstream : stream_to_disk chunks MAX_PDF_SIZE_BYTES none =
      (some (joinBytes chunks),
       .ok (sizeSum chunks) (sigOf (joinBytes chunks))) := by
    have := stream_loop_ok MAX_PDF_SIZE_BYTES chunks [] none false 0
      (by simpa using hsize) ⟨rfl, rfl⟩
    simpa [stream_to_disk] using this
  have hvalid : sigOf (joinBytes chunks) = false := by
    simp [sigOf, hsig]
  rw [handle_reaches_stream fn ct cl _ uid now m0 noFaults hfn hct hcl]
  rw [show noFaults.streamFailAt = none from rfl, hstream]
  rw [hvalid]
  rfl

/-- C3. For every fully consumed stream (total under the ceiling), the
persisted destination content is the concatenation of the chunks and the
signature flag equals the pure content check "the first 4 bytes are `%PDF`"
(computed from the first non-empty chunk when it has at least 4 bytes, else
by the deferred re-read of the written file); when that check fails the
upload fails with HTTP 415 and the destination file is deleted, whatever
content-type was declared. -/
theorem signature_enforcement (fn : PyStr) (ct cl : Option PyStr)
    (chunks : List Bytes) (uid : Nat) (now : PyDateTime) (m0 : Option PyStr)
    (hfn : fn ≠ []) (hct : check_type fn ct = none)
    (hcl : check_length cl = none)
    (hsize : sizeSum chunks ≤ MAX_PDF_SIZE_BYTES)
    (hsig : (joinBytes chunks).take 4 ≠ PDF_MAGIC) :
    stream_to_disk chunks MAX_PDF_SIZE_BYTES none =
      (some (joinBytes chunks),
       .ok (sizeSum chunks) (sigOf (joinBytes chunks))) ∧
    sigOf (joinBytes chunks) = false ∧
    handle_pdf_upload ⟨some fn, ct, cl, chunks⟩ uid now ⟨none, m0⟩ noFaults =
      (⟨none, m0⟩,
       .httpError ⟨415, "File content is not a valid PDF file"⟩) := by
  refine ⟨?_, by simp [sigOf, hsig], ?_⟩
  · have := stream_loop_ok MAX_PDF_SIZE_BYTES chunks [] none false 0
      (by simpa using hsize) ⟨rfl, rfl⟩
    simpa [stream_to_disk] using this
  · exact handle_bad_signature fn ct cl chunks uid now m0 hfn hct hcl hsize hsig

/-- Witness for C3: file `a.pdf` with declared type `application/pdf` and
body chunks `[1,2]` then `[3,4,5]` (content `[1,2,3,4,5]`, not `%PDF`): the
upload is rejected with 415 and no file remains. -/
theorem signature_enforcement_witness :
    stream_to_disk [[1, 2], [3, 4, 5]] MAX_PDF_SIZE_BYTES none =
      (some (joinBytes [[1, 2], [3, 4, 5]]),
       .ok (sizeSum [[1, 2], [3, 4, 5]]) (sigOf (joinBytes [[1, 2], [3, 4, 5]]))) ∧
    sigOf (joinBytes [[1, 2], [3, 4, 5]]) = false ∧
    handle_pdf_upload
        ⟨some "a.pdf".toList, some "application/pdf".toList, none,
         [[1, 2], [3, 4, 5]]⟩ 0 ⟨2024, 1, 1, 0, 0, 0, 0⟩ ⟨none, none⟩
        noFaults =
      (⟨none, none⟩,
       .httpError ⟨415, "File content is not a valid PDF file"⟩) :=
  signature_enforcement "a.pdf".toList (some "application/pdf".toList) none
    [[1, 2], [3, 4, 5]] 0
    { year := 2024, month := 1, day := 1, hour := 0, minute := 0,
      second := 0, microsecond := 0 } none
    (by decide) (by decide) (by decide) (by decide) (by decide)

/-- C10. For every request that passes the pre-stream checks but whose body
totals fewer than 4 bytes (including an empty body), the upload is rejected
with HTTP 415 and the destination file does not remain on disk. -/
theorem short_body_rejected (fn : PyStr) (ct cl : Option PyStr)
    (chunks : List Bytes) (uid : Nat) (now : PyDateTime) (m0 : Option PyStr)
    (hfn : fn ≠ []) (hct : check_type fn ct = none)
    (hcl : check_length cl = none)
    (hshort : sizeSum chunks < 4) :
    handle_pdf_upload ⟨some fn, ct, cl, chunks⟩ uid now ⟨none, m0⟩ noFaults =
      (⟨none, m0⟩,
       .httpError ⟨415, "File content is not a valid PDF file"⟩) := by
  apply handle_bad_signature fn ct cl chunks uid now m0 hfn hct hcl
  · unfold MAX_PDF_SIZE_BYTES
    omega
  · intro heq
    have hlen := congrArg List.length heq
    rw [List.length_take, joinBytes_length] at hlen
    have : PDF_MAGIC.length = 4 := rfl
    omega

/-- Witness for C10: empty body with valid headers — 415, no file. -/
theorem short_body_rejected_witness :
    handle_pdf_upload
        ⟨some "a.pdf".toList, some "application/pdf".toList, none, []⟩ 0
        ⟨2024, 1, 1, 0, 0, 0, 0⟩ ⟨none, none⟩ noFaults =
      (⟨none, none⟩,
       .httpError ⟨415, "File content is not a valid PDF file"⟩) :=
  short_body_rejected "a.pdf".toList (some "application/pdf".toList) none [] 0
    { year := 2024, month := 1, day := 1, hour := 0, minute := 0,
      second := 0, microsecond := 0 } none
    (by decide) (by decide) (by decide) (by decide)

/-- Witness for C2: file `a.pdf`, no content-length declared, one chunk of
`MAX_PDF_SIZE_BYTES + 1` zero bytes — 413, no file, tail `[[7]]` unread. -/
theorem stream_ceiling_abort_witness :
    stream_to_disk ([] ++ List.replicate (MAX_PDF_SIZE_BYTES + 1) 0 :: [[7]])
        MAX_PDF_SIZE_BYTES none = (none, .tooLarge) ∧
    handle_pdf_upload
        ⟨some "a.pdf".toList, some "application/pdf".toList, none,
         [] ++ List.replicate (MAX_PDF_SIZE_BYTES + 1) 0 :: [[7]]⟩ 0
        ⟨2024, 1, 1, 0, 0, 0, 0⟩ ⟨none, none⟩ noFaults =
      (⟨none, none⟩,
       .httpError ⟨413, "Cannot be Upload! Max File size is 100 MB"⟩) :=
  stream_ceiling_abort "a.pdf".toList (some "application/pdf".toList) none 0
    { year := 2024, month := 1, day := 1, hour := 0, minute := 0,
      second := 0, microsecond := 0 } none
    [] (List.replicate (MAX_PDF_SIZE_BYTES + 1) 0) [[7]]
    (by decide) (by decide) (by decide)
    (by rw [show sizeSum [] = 0 from rfl]; exact Nat.zero_le _)
    (by rw [show sizeSum [] = 0 from rfl, List.length_replicate]; omega)

/-- C4 counterexample: a valid 4-byte `%PDF` upload whose sidecar write
raises an I/O error ends in the catch-all 500 branch with the destination
file still on disk and no sidecar — the failure branch is NOT all-or-nothing.
(The code has no cleanup on the `_write_metadata` failure path, nor on an
`f.write` failure inside `_stream_to_disk`.) -/
theorem all_or_nothing_counterexample :
    handle_pdf_upload
        ⟨some "a.pdf".toList, some "application/pdf".toList, none,
         [[37, 80, 68, 70]]⟩ 0 ⟨2024, 1, 1, 0, 0, 0, 0⟩ ⟨none, none⟩
        ⟨none, true⟩ =
      (⟨some [37, 80, 68, 70], none⟩, .internalError) := by
  decide

/-- C4 amended: in the absence of I/O write failures the outcome is
all-or-nothing — starting from a fresh name, either the request succeeds and
the destination file (with a valid `%PDF` signature) and the sidecar record
both exist, or the request fails and neither exists.  (On an I/O failure
while writing the stream or the sidecar, the destination file remains on
disk, as the counterexample shows.) -/
theorem upload_all_or_nothing_no_fault (fn : PyStr) (ct cl : Option PyStr)
    (chunks : List Bytes) (uid : Nat) (now : PyDateTime) :
    ((handle_pdf_upload ⟨some fn, ct, cl, chunks⟩ uid now ⟨none, none⟩
        noFaults).2 = .created ∧
      (handle_pdf_upload ⟨some fn, ct, cl, chunks⟩ uid now ⟨none, none⟩
        noFaults).1.dest = some (joinBytes chunks) ∧
      sigOf (joinBytes chunks) = true ∧
      (handle_pdf_upload ⟨some fn, ct, cl, chunks⟩ uid now ⟨none, none⟩
        noFaults).1.sidecar = some (write_metadata_content
          ⟨uid, fn, storage_path_of fn, now⟩)) ∨
    ((handle_pdf_upload ⟨some fn, ct, cl, chunks⟩ uid now ⟨none, none⟩
        noFaults).2 ≠ .created ∧
      (handle_pdf_upload ⟨some fn, ct, cl, chunks⟩ uid now ⟨none, none⟩
        noFaults).1 = ⟨none, none⟩) := by
  by_cases hfn : fn = []
  · right
    simp [handle_pdf_upload, hfn]
  · cases hct : check_type fn ct with
    | some e =>
      right
      simp [handle_pdf_upload, hfn, hct]
    | none =>
      cases hcl : check_length cl with
      | some e =>
        right
        simp [handle_pdf_upload, hfn, hct, hcl]
      | none =>
        rw [handle_reaches_stream fn ct cl chunks uid now none noFaults hfn
          hct hcl]
        rcases stream_to_disk_no_fault_cases chunks MAX_PDF_SIZE_BYTES with
          hs | ⟨hle, hs⟩
        · right
          rw [show noFaults.streamFailAt = none from rfl, hs]
          simp
        · rw [show noFaults.streamFailAt = none from rfl, hs]
          cases hsig : sigOf (joinBytes chunks) with
          | true =>
            left
            exact ⟨rfl, rfl, rfl, rfl⟩
          | false =>
            right
            simp

/-- C5 counterexample: the file name `x.txt` does not end in `.pdf`, yet with
a declared content-type of `application/pdf` the pre-stream validation
accepts the request — the extension is NOT checked when a content-type is
declared. -/
theorem name_extension_counterexample :
    PDF_EXT.isSuffixOf (pyLower "x.txt".toList) = false ∧
    check_type "x.txt".toList (some "application/pdf".toList) = none := by
  decide

/-- C5 amended: the pre-stream name/type validation checks the extension only
as a fallback: when a truthy (nonempty) content-type is declared, only its
lower-cased value's membership in the allowed PDF MIME types decides (the
file name is ignored); when the content-type is absent — or empty, which
Python treats as absent — the case-insensitive `.pdf` extension check alone
governs.  All rejections are HTTP 415. -/
theorem check_type_characterisation (fn : PyStr) (ct : PyStr)
    (hne : ct ≠ []) :
    (check_type fn (some ct) =
      (if pyLower ct ∈ ALLOWED_CONTENT_TYPES then none
       else some ⟨415, "Only PDF files are allowed"⟩)) ∧
    (check_type fn none =
      (if PDF_EXT.isSuffixOf (pyLower fn) then none
       else some ⟨415, "Missing content-type header. Only PDF files are allowed"⟩)) ∧
    check_type fn (some []) = check_type fn none := by
  refine ⟨?_, rfl, rfl⟩
  simp [check_type, hne]

/-- Witness for the amended C5 at the concrete input `fn = "x.txt"`,
`ct = "application/pdf"`. -/
theorem check_type_characterisation_witness :
    (check_type "x.txt".toList (some "application/pdf".toList) =
      (if pyLower "application/pdf".toList ∈ ALLOWED_CONTENT_TYPES then none
       else some ⟨415, "Only PDF files are allowed"⟩)) ∧
    (check_type "x.txt".toList none =
      (if PDF_EXT.isSuffixOf (pyLower "x.txt".toList) then none
       else some ⟨415, "Missing content-type header. Only PDF files are allowed"⟩)) ∧
    check_type "x.txt".toList (some []) = check_type "x.txt".toList none :=
  check_type_characterisation "x.txt".toList "application/pdf".toList
    (by decide)

/-! ### Lemmas for the metadata round trip (C9) -/

/-- A string free of `str.splitlines()` line boundaries. -/
def noLineBoundary (l : PyStr) : Prop := ∀ c ∈ l, pyIsLineBoundary c = false

instance noLineBoundary_decidable (l : PyStr) : Decidable (noLineBoundary l) :=
  inferInstanceAs (Decidable (∀ c ∈ l, pyIsLineBoundary c = false))

theorem pySplitlinesGo_newline (rest : PyStr) (acc : List Char) :
    pySplitlinesGo ('\n' :: rest) acc =
      if rest = [] then [acc.reverse] else acc.reverse :: pySplitlinesGo rest [] :=
  rfl

theorem pySplitlinesGo_other (c : Char) (rest : PyStr) (acc : List Char)
    (hc : pyIsLineBoundary c = false) :
    pySplitlinesGo (c :: rest) acc = pySplitlinesGo rest (c :: acc) := by
  rw [pySplitlinesGo.eq_def]
  split
  · rename_i heq
    exact absurd heq (by simp)
  · rename_i heq
    injection heq with h1 _
    subst h1
    exact absurd hc (by decide)
  · rename_i heq
    injection heq with h1 h2
    subst h1
    subst h2
    rw [if_neg (by rw [hc]; exact Bool.false_ne_true)]

/-- Splitting consumes one terminator-free line up to the next `\n`. -/
theorem pySplitlinesGo_line (l : PyStr) (hl : noLineBoundary l) :
    ∀ (rest : PyStr), rest ≠ [] → ∀ (acc : List Char),
      pySplitlinesGo (l ++ '\n' :: rest) acc =
        (acc.reverse ++ l) :: pySplitlinesGo rest [] := by
  induction l with
  | nil =>
    intro rest hrest acc
    rw [List.nil_append, pySplitlinesGo_newline, if_neg hrest]
    simp
  | cons c l ih =>
    intro rest hrest acc
    have hc := hl c (List.mem_cons_self _ _)
    rw [List.cons_append, pySplitlinesGo_other c _ _ hc]
    rw [ih (fun x hx => hl x (List.mem_cons_of_mem c hx)) rest hrest (c :: acc)]
    simp

/-- A terminator-free remainder forms the final line. -/
theorem pySplitlinesGo_last (l : PyStr) (hl : noLineBoundary l) :
    ∀ (acc : List Char), pySplitlinesGo l acc = [acc.reverse ++ l] := by
  induction l with
  | nil =>
    intro acc
    simp [pySplitlinesGo]
  | cons c l ih =>
    intro acc
    have hc := hl c (List.mem_cons_self _ _)
    rw [pySplitlinesGo_other c _ _ hc]
    rw [ih (fun x hx => hl x (List.mem_cons_of_mem c hx)) (c :: acc)]
    simp

/-- Splitting the joined four sidecar lines recovers exactly the four lines
(when the lines carry no line terminators and the last one is nonempty). -/
theorem pySplitlines_four (l1 l2 l3 l4 : PyStr)
    (h1 : noLineBoundary l1) (h2 : noLineBoundary l2) (h3 : noLineBoundary l3) (h4 : noLineBoundary l4)
    (h4ne : l4 ≠ []) :
    pySplitlines (joinNl [l1, l2, l3, l4]) = [l1, l2, l3, l4] := by
  have hjoin : joinNl [l1, l2, l3, l4] =
      l1 ++ '\n' :: (l2 ++ '\n' :: (l3 ++ '\n' :: l4)) := rfl
  have hne2 : l3 ++ '\n' :: l4 ≠ [] := by
    cases l3 <;> simp
  have hne1 : l2 ++ '\n' :: (l3 ++ '\n' :: l4) ≠ [] := by
    cases l2 <;> simp
  have hne0 : joinNl [l1, l2, l3, l4] ≠ [] := by
    rw [hjoin]
    cases l1 <;> simp
  rw [pySplitlines, if_neg hne0, hjoin]
  rw [pySplitlinesGo_line l1 h1 _ hne1 []]
  rw [pySplitlinesGo_line l2 h2 _ hne2 []]
  rw [pySplitlinesGo_line l3 h3 _ (by simpa using h4ne) []]
  rw [pySplitlinesGo_last l4 h4 []]
  simp

theorem takeWhile_key (p : Char → Bool) (xs : PyStr) (y : Char) (ys : PyStr)
    (hxs : ∀ x ∈ xs, p x = true) (hy : p y = false) :
    (xs ++ y :: ys).takeWhile p = xs := by
  induction xs with
  | nil => simp [List.takeWhile_cons, hy]
  | cons a xs ih =>
    rw [List.cons_append, List.takeWhile_cons]
    simp [hxs a (List.mem_cons_self _ _),
      ih fun x hx => hxs x (List.mem_cons_of_mem a hx)]

theorem dropWhile_key (p : Char → Bool) (xs : PyStr) (y : Char) (ys : PyStr)
    (hxs : ∀ x ∈ xs, p x = true) (hy : p y = false) :
    (xs ++ y :: ys).dropWhile p = y :: ys := by
  induction xs with
  | nil => simp [List.dropWhile_cons, hy]
  | cons a xs ih =>
    rw [List.cons_append, List.dropWhile_cons]
    simp [hxs a (List.mem_cons_self _ _),
      ih fun x hx => hxs x (List.mem_cons_of_mem a hx)]

/-- Partitioning a `key=value` line at the first `=` recovers the key and
the value (the value may itself contain `=`). -/
theorem pyPartitionEq_key_value (key : PyStr) (v : PyStr)
    (hkey : ∀ x ∈ key, x ≠ '=') :
    pyPartitionEq (key ++ '=' :: v) = (key, v) := by
  unfold pyPartitionEq
  rw [takeWhile_key _ key '=' v (fun x hx => by simpa using hkey x hx) (by simp)]
  rw [dropWhile_key _ key '=' v (fun x hx => by simpa using hkey x hx) (by simp)]
  simp

theorem hexDigitChar_spec (d : Nat) :
    pyIsLineBoundary (hexDigitChar d) = false := by
  unfold hexDigitChar
  rcases Nat.lt_or_ge d 16 with h | h
  · interval_cases d <;> decide
  · rw [List.getD_eq_default]
    · decide
    · simpa using h

theorem decDigitChar_spec (d : Nat) :
    pyIsLineBoundary (decDigitChar d) = false := by
  unfold decDigitChar
  rcases Nat.lt_or_ge d 10 with h | h
  · interval_cases d <;> decide
  · rw [List.getD_eq_default]
    · decide
    · simpa using h

theorem noLineBoundary_toHex (n k : Nat) : noLineBoundary (toHex n k) := by
  intro c hc
  simp only [toHex, List.mem_map] at hc
  obtain ⟨i, -, rfl⟩ := hc
  exact hexDigitChar_spec _

theorem noLineBoundary_padNum (n w : Nat) : noLineBoundary (padNum n w) := by
  intro c hc
  simp only [padNum, List.mem_map] at hc
  obtain ⟨i, -, rfl⟩ := hc
  exact decDigitChar_spec _

theorem noLineBoundary_append (a b : PyStr) (ha : noLineBoundary a) (hb : noLineBoundary b) :
    noLineBoundary (a ++ b) := by
  intro c hc
  rcases List.mem_append.mp hc with h | h
  · exact ha c h
  · exact hb c h

theorem noLineBoundary_cons (x : Char) (l : PyStr) (hx : pyIsLineBoundary x = false)
    (hl : noLineBoundary l) : noLineBoundary (x :: l) := by
  intro c hc
  rcases List.mem_cons.mp hc with rfl | h
  · exact hx
  · exact hl c h

/-- Rendered UUIDs contain no line boundaries (hex digits and dashes). -/
theorem noLineBoundary_uuidStr (n : Nat) : noLineBoundary (uuidStr n) := by
  have hhex := noLineBoundary_toHex (n % 2 ^ 128) 32
  intro c hc
  simp only [uuidStr, List.mem_append, List.mem_cons] at hc
  casesm* _ ∨ _
  all_goals try subst_vars
  all_goals first
    | decide
    | exact hhex c (List.take_subset _ _ (by assumption))
    | exact hhex c (List.drop_subset _ _ (List.take_subset _ _ (by assumption)))
    | exact hhex c (List.drop_subset _ _ (by assumption))

/-- Rendered timestamps contain no line boundaries (digits and the
separators `-`, `T`, `:`, `.`). -/
theorem noLineBoundary_isoformat (dt : PyDateTime) : noLineBoundary (isoformat dt) := by
  intro c hc
  unfold isoformat at hc
  by_cases hms : dt.microsecond = 0
  · rw [if_pos hms] at hc
    simp only [List.mem_append, List.mem_cons, List.append_nil,
      List.not_mem_nil, or_false] at hc
    casesm* _ ∨ _
    all_goals try subst_vars
    all_goals first
      | decide
      | exact noLineBoundary_padNum _ _ c (by assumption)
  · rw [if_neg hms] at hc
    simp only [List.mem_append, List.mem_cons] at hc
    casesm* _ ∨ _
    all_goals try subst_vars
    all_goals first
      | decide
      | exact noLineBoundary_padNum _ _ c (by assumption)

/-- Rewriting a `"key=" ++ value` line into `key ++ '=' :: value` form. -/
theorem key_eq_line (k keq v : PyStr) (h : keq = k ++ ['=']) :
    keq ++ v = k ++ '=' :: v := by
  subst h
  rw [List.append_assoc, List.singleton_append]

/-- Parsing one well-formed `key=value` line binds the key to the value. -/
theorem parse_line_into_eq (d : List (PyStr × PyStr)) (k v : PyStr)
    (hk : ∀ x ∈ k, x ≠ '=') (hks : pyStrip k = k) (hvs : pyStrip v = v) :
    parse_line_into d (k ++ '=' :: v) = (k, v) :: d := by
  unfold parse_line_into
  rw [if_pos (by simp), pyPartitionEq_key_value k v hk]
  rw [hks, hvs]

/-- C9 counterexample: the file name `"a\x0bb.pdf"` contains no `\n` and no
`\r` and none of the four serialized values begins or ends with whitespace,
yet the round trip fails: `\x0b` (vertical tab) is a `str.splitlines()` line
boundary, so the sidecar line `file_name=a\x0bb.pdf` splits in two during
parsing and the parsed record carries `file_name = "a"`, not the original
name. -/
theorem metadata_round_trip_counterexample :
    (∀ c ∈ ("a\x0bb.pdf".toList : List Char), c ≠ '\n' ∧ c ≠ '\r') ∧
    pyStrip (uuidStr 0) = uuidStr 0 ∧
    pyStrip "a\x0bb.pdf".toList = "a\x0bb.pdf".toList ∧
    pyStrip "C:\\a.pdf".toList = "C:\\a.pdf".toList ∧
    pyStrip (isoformat ⟨2024, 1, 2, 3, 4, 5, 0⟩) =
      isoformat ⟨2024, 1, 2, 3, 4, 5, 0⟩ ∧
    parse_metadata_file (write_metadata_content
        ⟨0, "a\x0bb.pdf".toList, "C:\\a.pdf".toList, ⟨2024, 1, 2, 3, 4, 5, 0⟩⟩) =
      some ⟨uuidStr 0, "a".toList, "C:\\a.pdf".toList,
            isoformat ⟨2024, 1, 2, 3, 4, 5, 0⟩⟩ ∧
    parse_metadata_file (write_metadata_content
        ⟨0, "a\x0bb.pdf".toList, "C:\\a.pdf".toList, ⟨2024, 1, 2, 3, 4, 5, 0⟩⟩) ≠
      some ⟨uuidStr 0, "a\x0bb.pdf".toList, "C:\\a.pdf".toList,
            isoformat ⟨2024, 1, 2, 3, 4, 5, 0⟩⟩ := by
  decide

/-- C9 amended. For every `FileMetadata` whose `file_name` and
`storage_path` contain no `str.splitlines()` line-boundary characters (not
just `\n` and `\r`: also `\x0b`, `\x0c`, `\x1c`-`\x1e`, `\x85`, U+2028,
U+2029 — the counterexample shows `\n`/`\r`-freedom alone is not enough)
and whose four serialized field values neither begin nor end with whitespace
(`strip` is the identity on them), writing the sidecar content with
`_write_metadata` and parsing it back with `parse_metadata_file` yields the
record with the same `unique_id`, `file_name`, `storage_path` and
`uploaded_at` (in their serialized forms — a write/parse round trip). -/
theorem metadata_round_trip (m : FileMetadata)
    (hfn_n : noLineBoundary m.file_name) (hsp_n : noLineBoundary m.storage_path)
    (hs1 : pyStrip (uuidStr m.unique_id) = uuidStr m.unique_id)
    (hs2 : pyStrip m.file_name = m.file_name)
    (hs3 : pyStrip m.storage_path = m.storage_path)
    (hs4 : pyStrip (isoformat m.uploaded_at) = isoformat m.uploaded_at) :
    parse_metadata_file (write_metadata_content m) =
      some ⟨uuidStr m.unique_id, m.file_name, m.storage_path,
            isoformat m.uploaded_at⟩ := by
  have e1 : "unique_id=".toList ++ uuidStr m.unique_id =
      "unique_id".toList ++ '=' :: uuidStr m.unique_id :=
    key_eq_line _ _ _ (by decide)
  have e2 : "file_name=".toList ++ m.file_name =
      "file_name".toList ++ '=' :: m.file_name :=
    key_eq_line _ _ _ (by decide)
  have e3 : "storage_path=".toList ++ m.storage_path =
      "storage_path".toList ++ '=' :: m.storage_path :=
    key_eq_line _ _ _ (by decide)
  have e4 : "uploaded_at=".toList ++ isoformat m.uploaded_at =
      "uploaded_at".toList ++ '=' :: isoformat m.uploaded_at :=
    key_eq_line _ _ _ (by decide)
  have hlines : metadata_lines m =
      ["unique_id".toList ++ '=' :: uuidStr m.unique_id,
       "file_name".toList ++ '=' :: m.file_name,
       "storage_path".toList ++ '=' :: m.storage_path,
       "uploaded_at".toList ++ '=' :: isoformat m.uploaded_at] := by
    unfold metadata_lines
    rw [e1, e2, e3, e4]
  have hn1 : noLineBoundary ("unique_id".toList ++ '=' :: uuidStr m.unique_id) :=
    noLineBoundary_append _ _ (by decide)
      (noLineBoundary_cons _ _ (by decide) (noLineBoundary_uuidStr m.unique_id))
  have hn2 : noLineBoundary ("file_name".toList ++ '=' :: m.file_name) :=
    noLineBoundary_append _ _ (by decide) (noLineBoundary_cons _ _ (by decide) hfn_n)
  have hn3 : noLineBoundary ("storage_path".toList ++ '=' :: m.storage_path) :=
    noLineBoundary_append _ _ (by decide) (noLineBoundary_cons _ _ (by decide) hsp_n)
  have hn4 : noLineBoundary ("uploaded_at".toList ++ '=' :: isoformat m.uploaded_at) :=
    noLineBoundary_append _ _ (by decide)
      (noLineBoundary_cons _ _ (by decide) (noLineBoundary_isoformat m.uploaded_at))
  have hl4ne : "uploaded_at".toList ++ '=' :: isoformat m.uploaded_at ≠ [] := by
    intro h
    have hlen := congrArg List.length h
    rw [List.length_append] at hlen
    simp at hlen
  have hsplit : pySplitlines (write_metadata_content m) =
      ["unique_id".toList ++ '=' :: uuidStr m.unique_id,
       "file_name".toList ++ '=' :: m.file_name,
       "storage_path".toList ++ '=' :: m.storage_path,
       "uploaded_at".toList ++ '=' :: isoformat m.uploaded_at] := by
    unfold write_metadata_content
    rw [hlines]
    exact pySplitlines_four _ _ _ _ hn1 hn2 hn3 hn4 hl4ne
  have hdict : parse_metadata_dict
      ["unique_id".toList ++ '=' :: uuidStr m.unique_id,
       "file_name".toList ++ '=' :: m.file_name,
       "storage_path".toList ++ '=' :: m.storage_path,
       "uploaded_at".toList ++ '=' :: isoformat m.uploaded_at] =
      [("uploaded_at".toList, isoformat m.uploaded_at),
       ("storage_path".toList, m.storage_path),
       ("file_name".toList, m.file_name),
       ("unique_id".toList, uuidStr m.unique_id)] := by
    unfold parse_metadata_dict
    rw [List.foldl_cons, parse_line_into_eq _ _ _ (by decide) (by decide) hs1]
    rw [List.foldl_cons, parse_line_into_eq _ _ _ (by decide) (by decide) hs2]
    rw [List.foldl_cons, parse_line_into_eq _ _ _ (by decide) (by decide) hs3]
    rw [List.foldl_cons, parse_line_into_eq _ _ _ (by decide) (by decide) hs4]
    rw [List.foldl_nil]
  unfold parse_metadata_file
  rw [hsplit, hdict]
  rfl

/-- Witness for C9 at a concrete metadata record. -/
theorem metadata_round_trip_witness :
    parse_metadata_file (write_metadata_content
        ⟨0, "a.pdf".toList, "C:\\data\\a.pdf".toList,
         ⟨2024, 1, 2, 3, 4, 5, 0⟩⟩) =
      some ⟨uuidStr 0, "a.pdf".toList, "C:\\data\\a.pdf".toList,
            isoformat ⟨2024, 1, 2, 3, 4, 5, 0⟩⟩ :=
  metadata_round_trip ⟨0, "a.pdf".toList, "C:\\data\\a.pdf".toList,
      ⟨2024, 1, 2, 3, 4, 5, 0⟩⟩
    (by decide) (by decide) (by decide) (by decide) (by decide) (by decide)

end Hootone
